import Mathlib

/-!
Verification development for the mini agent-orchestration engine
(`llm_factory.py`, `miniagent/utils.py`, `miniagent/v1_basic.py`,
`miniagent/v3_subagent.py`, `miniagent/v4_skills.py`).

The Python sources are shallowly embedded as executable Lean functions:
Python dicts parsed from JSON become a `Json` inductive, raised exceptions
become `Except`/`Option` results, and the external model-call and
tool-execution boundaries become function parameters, exactly as the code
treats them (the loop only ever sees a block list plus a stop reason from
the model boundary, and a result string from the dispatcher).
-/

namespace MiniAgent

/-- JSON values as produced by Python's `json.loads`.  Numbers are kept as
their source lexeme (`num "0"`, `num "1e-5"`): no claim computes with
numeric values, only truthiness, which is decidable from the lexeme. -/
inductive Json where
  | null : Json
  | bool (b : Bool) : Json
  | num (lit : String) : Json
  | str (s : String) : Json
  | arr (elems : List Json) : Json
  | obj (fields : List (String × Json)) : Json

/-- Python's `"\n".join` / `", ".join`: empty string for `[]`, no trailing
separator. -/
def pyJoin (sep : String) : List String → String
  | [] => ""
  | [x] => x
  | x :: xs => x ++ sep ++ pyJoin sep xs

/-- Whitespace recognized by Python's `json` module and by `\s` in `re`
(space, tab, newline, carriage return, form feed, vertical tab). -/
def isPyWs (c : Char) : Bool :=
  c = ' ' ∨ c = '\t' ∨ c = '\n' ∨ c = '\r' ∨ c = '\x0c' ∨ c = '\x0b'

/-- Prefix test on character lists (first argument: the list, second: the
candidate prefix). -/
def listStartsWith : List Char → List Char → Bool
  | _, [] => true
  | [], _ :: _ => false
  | c :: cs, p :: ps => c = p && listStartsWith cs ps

/-- Python `s.startswith(p)`. -/
def strStartsWith (s p : String) : Bool := listStartsWith s.data p.data

/-- Splitter on a non-empty separator, by structural recursion on fuel
(one unit per character consumed, so input length plus one suffices). -/
def splitOnAux (sep : List Char) : Nat → List Char → List Char →
    List (List Char)
  | 0, cs, acc => [acc.reverse ++ cs]
  | _ + 1, [], acc => [acc.reverse]
  | fuel + 1, c :: cs, acc =>
    if listStartsWith (c :: cs) sep then
      acc.reverse :: splitOnAux sep fuel ((c :: cs).drop sep.length) []
    else splitOnAux sep fuel cs (c :: acc)

/-- Python `s.split(sep)` for a non-empty separator (which is also the
behavior of Lean's `String.splitOn`, re-implemented here by structural
recursion): delimited pieces with empty pieces preserved. -/
def strSplitOn (s sep : String) : List String :=
  if sep = "" then [s]
  else (splitOnAux sep.data (s.data.length + 1) s.data []).map String.mk

/-- Python `s.strip()` (restricted to the ASCII whitespace the sources
ever produce). -/
def pyStrip (s : String) : String :=
  String.mk (((s.data.dropWhile isPyWs).reverse.dropWhile isPyWs).reverse)

/-- Python `s.lower()` (ASCII case mapping). -/
def strToLower (s : String) : String :=
  String.mk (s.data.map Char.toLower)

/-- Numeric lexeme is a representation of zero (so falsy in Python): every
digit of the mantissa (before any exponent marker) is `0`. -/
def numIsZero (lit : String) : Bool :=
  (lit.data.takeWhile (fun c => c ≠ 'e' ∧ c ≠ 'E')).all
    (fun c => ¬ c.isDigit ∨ c = '0')

/-- Python truthiness of a parsed JSON value (`if data.get("content"):`). -/
def Json.truthy : Json → Bool
  | .null => false
  | .bool b => b
  | .num lit => ¬ numIsZero lit
  | .str s => s ≠ ""
  | .arr xs => ¬ xs.isEmpty
  | .obj kvs => ¬ kvs.isEmpty

/-- Lookup in a parsed JSON object with Python `dict` semantics: a repeated
key keeps the last binding (later assignments overwrite). -/
def dictGet : List (String × Json) → String → Option Json
  | [], _ => none
  | kv :: rest, key =>
    match dictGet rest key with
    | some v => some v
    | none => if kv.1 = key then some kv.2 else none

/-- Key membership test for a parsed JSON object (`key in d` on a dict). -/
def dictHasKey (fields : List (String × Json)) (key : String) : Bool :=
  fields.any (fun kv => kv.1 = key)

mutual

/-- Python `repr` of a parsed JSON value, as interpolated by an f-string for
values nested inside containers (string escaping inside `repr` is not
reproduced; no claim depends on it). -/
def Json.pyRepr : Json → String
  | .null => "None"
  | .bool true => "True"
  | .bool false => "False"
  | .num lit => lit
  | .str s => "\x27" ++ s ++ "\x27"
  | .arr xs => "[" ++ pyJoin ", " (pyReprList xs) ++ "]"
  | .obj kvs => "\x7b" ++ pyJoin ", " (pyReprFields kvs) ++ "\x7d"

/-- Helper for `Json.pyRepr`: repr of each array element. -/
def pyReprList : List Json → List String
  | [] => []
  | x :: xs => x.pyRepr :: pyReprList xs

/-- Helper for `Json.pyRepr`: repr of each object field. -/
def pyReprFields : List (String × Json) → List String
  | [] => []
  | kv :: kvs => ("\x27" ++ kv.1 ++ "\x27: " ++ kv.2.pyRepr) :: pyReprFields kvs

end

/-- Python `str()` of a parsed JSON value, as interpolated by a top-level
f-string expression: a string renders as itself, containers via `repr`. -/
def Json.pyStr : Json → String
  | .str s => s
  | j => j.pyRepr

/-! ### A small executable JSON parser

Models `json.loads` on the raw model reply.  Recursion is by explicit fuel;
`Json.parse` supplies more fuel than the input length, which is enough
because every cycle of the grammar consumes at least one character.
Number lexemes are accepted leniently (any run of sign/digit/dot/exponent
characters containing a digit); this is observationally harmless for the
normalizer because a reply the lenient parser turns into a bare number and
a reply `json.loads` rejects normalize to the same `ModelTurn` (a single
verbatim text block). -/

/-- Hex digit value for `\uXXXX` string escapes. -/
def hexVal (c : Char) : Option Nat :=
  if '0' ≤ c ∧ c ≤ '9' then some (c.toNat - '0'.toNat)
  else if 'a' ≤ c ∧ c ≤ 'f' then some (c.toNat - 'a'.toNat + 10)
  else if 'A' ≤ c ∧ c ≤ 'F' then some (c.toNat - 'A'.toNat + 10)
  else none

/-- Parse the body of a JSON string literal, after the opening quote.
Returns the decoded characters and the input after the closing quote. -/
def parseStrBody : Nat → List Char → Option (List Char × List Char)
  | 0, _ => none
  | _, [] => none
  | fuel + 1, c :: cs =>
    if c = '"' then some ([], cs)
    else if c = '\\' then
      match cs with
      | [] => none
      | e :: cs' =>
        let dec : Option (Char × List Char) :=
          if e = '"' then some ('"', cs')
          else if e = '\\' then some ('\\', cs')
          else if e = '/' then some ('/', cs')
          else if e = 'b' then some ('\x08', cs')
          else if e = 'f' then some ('\x0c', cs')
          else if e = 'n' then some ('\n', cs')
          else if e = 'r' then some ('\r', cs')
          else if e = 't' then some ('\t', cs')
          else if e = 'u' then
            match cs' with
            | h1 :: h2 :: h3 :: h4 :: cs'' =>
              match hexVal h1, hexVal h2, hexVal h3, hexVal h4 with
              | some a, some b, some c3, some d =>
                some (Char.ofNat (((a * 16 + b) * 16 + c3) * 16 + d), cs'')
              | _, _, _, _ => none
            | _ => none
          else none
        match dec with
        | none => none
        | some (ch, rest) =>
          match parseStrBody fuel rest with
          | some (s, r) => some (ch :: s, r)
          | none => none
    else
      match parseStrBody fuel cs with
      | some (s, r) => some (c :: s, r)
      | none => none

/-- Characters that may appear in a number lexeme. -/
def isNumChar (c : Char) : Bool :=
  c.isDigit ∨ c = '-' ∨ c = '+' ∨ c = '.' ∨ c = 'e' ∨ c = 'E'

/-- Drop leading JSON whitespace. -/
def skipWs (cs : List Char) : List Char := cs.dropWhile isPyWs

mutual

/-- Parse one JSON value from the input (leading whitespace allowed).
Returns the value and the remaining input. -/
def parseVal : Nat → List Char → Option (Json × List Char)
  | 0, _ => none
  | fuel + 1, cs0 =>
    match skipWs cs0 with
    | [] => none
    | c :: cs =>
      if c = '"' then
        match parseStrBody (fuel + 1) cs with
        | some (s, r) => some (.str (String.mk s), r)
        | none => none
      else if c = '\x7b' then
        match skipWs cs with
        | '\x7d' :: r => some (.obj [], r)
        | _ => parseFields fuel cs []
      else if c = '[' then
        match skipWs cs with
        | ']' :: r => some (.arr [], r)
        | _ => parseElems fuel cs []
      else if c = 't' then
        match cs with
        | 'r' :: 'u' :: 'e' :: r => some (.bool true, r)
        | _ => none
      else if c = 'f' then
        match cs with
        | 'a' :: 'l' :: 's' :: 'e' :: r => some (.bool false, r)
        | _ => none
      else if c = 'n' then
        match cs with
        | 'u' :: 'l' :: 'l' :: r => some (.null, r)
        | _ => none
      else if c.isDigit ∨ c = '-' then
        let lex := c :: cs.takeWhile isNumChar
        if lex.any Char.isDigit then
          some (.num (String.mk lex), cs.dropWhile isNumChar)
        else none
      else none

/-- Parse the elements of an array, after `[` (the non-empty case). -/
def parseElems : Nat → List Char → List Json → Option (Json × List Char)
  | 0, _, _ => none
  | fuel + 1, cs, acc =>
    match parseVal fuel cs with
    | none => none
    | some (v, r) =>
      match skipWs r with
      | ',' :: r' => parseElems fuel r' (acc ++ [v])
      | ']' :: r' => some (.arr (acc ++ [v]), r')
      | _ => none

/-- Parse the fields of an object, after `\x7b` (the non-empty case). -/
def parseFields : Nat → List Char → List (String × Json) →
    Option (Json × List Char)
  | 0, _, _ => none
  | fuel + 1, cs, acc =>
    match skipWs cs with
    | '"' :: cs' =>
      match parseStrBody (fuel + 1) cs' with
      | none => none
      | some (k, r) =>
        match skipWs r with
        | ':' :: r' =>
          match parseVal fuel r' with
          | none => none
          | some (v, r'') =>
            match skipWs r'' with
            | ',' :: r3 => parseFields fuel r3 (acc ++ [(String.mk k, v)])
            | '\x7d' :: r3 => some (.obj (acc ++ [(String.mk k, v)]), r3)
            | _ => none
        | _ => none
    | _ => none

end

/-- Model of `json.loads` on a raw reply string: parse one value and require
only whitespace to remain; `none` models a raised `JSONDecodeError`. -/
def Json.parse (s : String) : Option Json :=
  match parseVal (s.length + 16) s.data with
  | some (v, rest) => if (skipWs rest).isEmpty then some v else none
  | none => none

/-! ### Response normalizer

Embeds the normalization half of `LLMChatAdapter.chat_with_tools`
(`llm_factory.py`, lines 169-226): the raw reply string is fed to
`json.loads`; a dict with a `tool_calls` list, or a legacy list whose head
has a `function`/`type` key, is converted to typed blocks; anything else
(including a parse error) degrades to a single text block.  The dynamic
`type("TextBlock", ...)` / `type("ToolUseBlock", ...)` objects become the
`ContentBlock` union; an exception raised while converting a malformed
tool-call entry is caught by the surrounding bare `except`, which appends
one text block holding the raw content after whatever blocks were already
appended (and leaves `stop_reason` as already assigned). -/

/-- Typed content block: `TextBlock` carries the `text` attribute,
`ToolUseBlock` carries `id`, `name`, `input`. Payloads are `Json` because
the Python code stores whatever `json.loads` produced, without coercion. -/
inductive ContentBlock where
  | text (t : Json) : ContentBlock
  | toolUse (id : Json) (name : Json) (input : Json) : ContentBlock

/-- The `Response` object: ordered blocks plus a stop reason. -/
structure ModelTurn where
  content : List ContentBlock
  stop_reason : String

/-- Python `"function" in tc` for a parsed JSON value: key test on a dict,
substring test on a string, membership on a list; `TypeError` (modelled as
`none`) on the remaining types. -/
def pyContainsFunction : Json → Option Bool
  | .obj kvs => some (dictHasKey kvs "function")
  | .str s => some ((strSplitOn s "function").length > 1)
  | .arr xs => some (xs.any fun j => match j with
      | .str s => s = "function"
      | _ => false)
  | _ => none

/-- Python `tc["function"]`: succeeds only on a dict holding the key
(`none` models the `TypeError`/`KeyError` raised otherwise). -/
def pyIndexFunction : Json → Option Json
  | .obj kvs => dictGet kvs "function"
  | _ => none

/-- The `arguments` value after the inner `json.loads` attempt: a
serialized string is parsed, falling back to the raw string on failure;
non-string values pass through. -/
def decodeArguments : Json → Json
  | .str s =>
    match Json.parse s with
    | some j => j
    | none => .str s
  | j => j

/-- One pass over `tool_list` (the `for tc in tool_list` loop).  Returns
the accumulated blocks and whether an exception escaped the loop: an entry
without a `function` key is skipped; an entry whose key test or indexing
raises, or whose function object lacks `arguments` or `name`, aborts the
loop with the blocks appended so far. -/
def processToolCalls : List Json → List ContentBlock →
    List ContentBlock × Bool
  | [], acc => (acc, false)
  | tc :: rest, acc =>
    match pyContainsFunction tc with
    | none => (acc, true)
    | some false => processToolCalls rest acc
    | some true =>
      match pyIndexFunction tc with
      | none => (acc, true)
      | some funcData =>
        match funcData with
        | .obj fd =>
          match dictGet fd "arguments" with
          | none => (acc, true)
          | some args0 =>
            match dictGet fd "name" with
            | none => (acc, true)
            | some nm =>
              let idv := match tc with
                | .obj kvs => (dictGet kvs "id").getD (.str "call_1")
                | _ => .str "call_1"
              processToolCalls rest
                (acc ++ [.toolUse idv nm (decodeArguments args0)])
        | _ => (acc, true)

/-- The new-format branch guard: `isinstance(data, dict) and "tool_calls"
in data and isinstance(data["tool_calls"], list)`. -/
def isDictToolCalls : Json → Bool
  | .obj kvs =>
    dictHasKey kvs "tool_calls" &&
      match dictGet kvs "tool_calls" with
      | some (.arr _) => true
      | _ => false
  | _ => false

/-- The legacy branch guard: `isinstance(data, list) and len(data) > 0 and
isinstance(data[0], dict) and ("function" in data[0] or "type" in
data[0])`. -/
def isLegacyToolList : Json → Bool
  | .arr (first :: _) =>
    match first with
    | .obj kvs => dictHasKey kvs "function" ∨ dictHasKey kvs "type"
    | _ => false
  | _ => false

/-- Field list of a JSON object (empty on other values). -/
def Json.objFields : Json → List (String × Json)
  | .obj kvs => kvs
  | _ => []

/-- Element list of a JSON array (empty on other values). -/
def Json.arrElems : Json → List Json
  | .arr xs => xs
  | _ => []

/-- The leading text block of the new-format branch: present exactly when
the object's `content` value is truthy (`if data.get("content"):`). -/
def leadingTextBlocks (kvs : List (String × Json)) : List ContentBlock :=
  match dictGet kvs "content" with
  | some cv => if cv.truthy then [.text cv] else []
  | none => []

/-- The `tool_list` taken from the new-format object
(`data["tool_calls"]`, known to be a list when the branch guard holds). -/
def toolCallsOf (kvs : List (String × Json)) : List Json :=
  match dictGet kvs "tool_calls" with
  | some (.arr tl) => tl
  | _ => []

/-- Blocks of the branch that ran the conversion loop: when the loop
raised, the bare `except` appends one text block holding the raw content
after the blocks already accumulated. -/
def branchBlocks (content : String) (pr : List ContentBlock × Bool) :
    List ContentBlock :=
  if pr.2 then pr.1 ++ [.text (.str content)] else pr.1

/-- Normalize a raw model reply into a `ModelTurn`
(`chat_with_tools`, success path). -/
def normalize (content : String) : ModelTurn :=
  match Json.parse content with
  | none => ⟨[.text (.str content)], "end_turn"⟩
  | some data =>
    if isDictToolCalls data then
      ⟨branchBlocks content
        (processToolCalls (toolCallsOf data.objFields)
          (leadingTextBlocks data.objFields)), "tool_use"⟩
    else if isLegacyToolList data then
      ⟨branchBlocks content (processToolCalls data.arrElems []),
        "tool_use"⟩
    else ⟨[.text (.str content)], "end_turn"⟩

/-! ### Todo store

Embeds `TodoManager` from `miniagent/utils.py` (the later, identical
redefinition at lines 317-418 is the one in force; both copies have the
same `update`/`render` logic).  Items arrive as JSON objects whose fields
are text per the tool schema (`content`, `status`, `activeForm` all typed
`string`); a missing field defaults as in `item.get(...)`.  The `raise
ValueError` paths become `Except.error`; the caller in
`v4_skills.execute_tool` catches them and returns `"Error: ..."` without
touching `self.items`. -/

/-- Input shape of one element of the `items` argument: each field either
absent or a string (the schema types them `string`; `str()` is the
identity on them). -/
structure TodoItemInput where
  content : Option String
  status : Option String
  activeForm : Option String

/-- A stored, validated todo item. -/
structure TodoItem where
  content : String
  status : String
  activeForm : String

/-- Per-item validation from the `for i, item in enumerate(items)` body:
strip `content`/`activeForm`, lowercase `status`, then the three checks in
source order. -/
def validateItem (i : Nat) (item : TodoItemInput) : Except String TodoItem :=
  let content := pyStrip (item.content.getD "")
  let status := strToLower (item.status.getD "pending")
  let activeForm := pyStrip (item.activeForm.getD "")
  if content = "" then
    .error ("Item " ++ toString i ++ ": content required")
  else if ¬ (status = "pending" ∨ status = "in_progress" ∨
      status = "completed") then
    .error ("Item " ++ toString i ++ ": invalid status \x27" ++ status ++
      "\x27")
  else if activeForm = "" then
    .error ("Item " ++ toString i ++ ": activeForm required")
  else
    .ok ⟨content, status, activeForm⟩

/-- Validate the whole list in order, indexed from `i` (the first raise
propagates, as in the Python `for` loop). -/
def validateItems (i : Nat) : List TodoItemInput →
    Except String (List TodoItem)
  | [] => .ok []
  | item :: rest =>
    match validateItem i item with
    | .error e => .error e
    | .ok v =>
      match validateItems (i + 1) rest with
      | .error e => .error e
      | .ok vs => .ok (v :: vs)

/-- Number of validated items with status `in_progress`. -/
def inProgressCount (items : List TodoItem) : Nat :=
  (items.filter (fun t => t.status = "in_progress")).length

/-- Embeds `TodoManager.update`: validate every item, then enforce the size and
single-`in_progress` constraints; `Except.error` models the raised
`ValueError`, `Except.ok` the new value of `self.items`. -/
def TodoManager.update (items : List TodoItemInput) :
    Except String (List TodoItem) :=
  match validateItems 0 items with
  | .error e => .error e
  | .ok validated =>
    if validated.length > 20 then
      .error "Max 20 todos allowed"
    else if inProgressCount validated > 1 then
      .error "Only one task can be in_progress at a time"
    else
      .ok validated

/-- The line rendered for one item, with the fixed status glyphs. -/
def renderItem (it : TodoItem) : String :=
  if it.status = "completed" then "[x] " ++ it.content
  else if it.status = "in_progress" then
    "[>] " ++ it.content ++ " <- " ++ it.activeForm
  else "[ ] " ++ it.content

/-- Number of stored items with status `completed`. -/
def completedCount (items : List TodoItem) : Nat :=
  (items.filter (fun t => t.status = "completed")).length

/-- The trailing summary element appended to `lines` (note the leading
newline in the source f-string). -/
def renderSummary (items : List TodoItem) : String :=
  "\n(" ++ toString (completedCount items) ++ "/" ++
    toString items.length ++ " completed)"

/-- Embeds `TodoManager.render` on a stored list. -/
def TodoManager.render (items : List TodoItem) : String :=
  if items.isEmpty then "No todos."
  else pyJoin "\n" (items.map renderItem ++ [renderSummary items])

/-- The `TodoWrite` dispatch path of `v4_skills.execute_tool`: on a
validation error the stored list is left as it was and the exception text
is returned as `"Error: ..."`; on success the store is replaced wholesale
and the rendered view returned. -/
def todoWrite (items : List TodoItemInput) (stored : List TodoItem) :
    List TodoItem × String :=
  match TodoManager.update items with
  | .error e => (stored, "Error: " ++ e)
  | .ok newItems => (newItems, TodoManager.render newItems)

/-! ### Path containment and file tools

Embeds `safe_path`, `run_read`, `run_write`, `run_edit` from
`miniagent/utils.py`.  A POSIX path is a list of components; `WORKDIR`
(`Path.cwd()`) is an already-resolved absolute path.  `resolve()` is
modelled purely lexically (symlink traversal is outside the embedding):
`.` and empty components vanish, `..` pops one component and is a no-op at
the root.  The filesystem is an explicit association of resolved paths to
file contents, so that "no write happened" is a provable equality. -/

/-- Lexical resolution of path components onto a stack of already-resolved
components. -/
def resolveOnto (acc : List String) : List String → List String
  | [] => acc
  | c :: cs =>
    if c = "" ∨ c = "." then resolveOnto acc cs
    else if c = ".." then resolveOnto acc.dropLast cs
    else resolveOnto (acc ++ [c]) cs

/-- Embeds `(WORKDIR / p).resolve()`: an absolute `p` replaces the workdir
(`pathlib` join semantics), a relative one resolves against it. -/
def resolvedPath (workdir : List String) (p : String) : List String :=
  if strStartsWith p "/" then resolveOnto [] (strSplitOn p "/")
  else resolveOnto workdir (strSplitOn p "/")

/-- Embeds `safe_path`: resolve and require the result to stay inside the
workspace (`is_relative_to`); the `ValueError` becomes `Except.error`
carrying the exception text. -/
def safe_path (workdir : List String) (p : String) :
    Except String (List String) :=
  let path := resolvedPath workdir p
  if workdir.isPrefixOf path then .ok path
  else .error ("Path escapes workspace: " ++ p)

/-- Filesystem contents: resolved path components to file text. -/
abbrev FileSys := List (List String × String)

/-- Read a file if present. -/
def fsRead (fs : FileSys) (path : List String) : Option String :=
  (fs.find? (fun e => e.1 = path)).map (·.2)

/-- Write (create or overwrite) a file. -/
def fsWrite (fs : FileSys) (path : List String) (content : String) :
    FileSys :=
  if (fs.find? (fun e => e.1 = path)).isSome then
    fs.map (fun e => if e.1 = path then (path, content) else e)
  else fs ++ [(path, content)]

/-- Stand-in text for the OS-dependent `FileNotFoundError` message caught
by the tool's `except` clause. -/
def fileNotFoundMsg (p : String) : String := "No such file: " ++ p

/-- Truncation of the line list when `limit` is given: Python `if limit`
is falsy for `None` and for `0`. -/
def applyLimit (lines : List String) : Option Int → List String
  | none => lines
  | some l =>
    if l ≠ 0 ∧ l < (lines.length : Int) then
      lines.take l.toNat ++
        ["... (" ++ toString ((lines.length : Int) - l) ++ " more lines)"]
    else lines

/-- Embeds `run_read`: containment check, read, optional line limit, 50,000
character cap; every failure is returned as `"Error: ..."` text. -/
def run_read (fs : FileSys) (workdir : List String) (p : String)
    (limit : Option Int) : String :=
  match safe_path workdir p with
  | .error e => "Error: " ++ e
  | .ok path =>
    match fsRead fs path with
    | none => "Error: " ++ fileNotFoundMsg p
    | some text =>
      (pyJoin "\n" (applyLimit (strSplitOn text "\n") limit)).take 50000

/-- Embeds `run_write`: containment check, then write; returns the new filesystem
and the result text (the source's `len(content)` counts characters). -/
def run_write (fs : FileSys) (workdir : List String) (p : String)
    (content : String) : FileSys × String :=
  match safe_path workdir p with
  | .error e => (fs, "Error: " ++ e)
  | .ok path =>
    (fsWrite fs path content,
      "Wrote " ++ toString content.length ++ " bytes to " ++ p)

/-- Leftmost-first single replacement, Python
`content.replace(old, new, 1)` (an empty `old` inserts at the front). -/
def replaceFirst (content old new : String) : String :=
  if old = "" then new ++ content
  else
    match strSplitOn content old with
    | [] => content
    | [whole] => whole
    | pre :: post :: rest => pre ++ new ++ pyJoin old (post :: rest)

/-- Python `old in content` (substring test; an empty needle is always
contained). -/
def strContains (content old : String) : Bool :=
  old = "" ∨ (strSplitOn content old).length > 1

/-- Embeds `run_edit`: containment check, read, verbatim containment test of
`old_text`, then first-occurrence replacement. -/
def run_edit (fs : FileSys) (workdir : List String)
    (p old_text new_text : String) : FileSys × String :=
  match safe_path workdir p with
  | .error e => (fs, "Error: " ++ e)
  | .ok path =>
    match fsRead fs path with
    | none => (fs, "Error: " ++ fileNotFoundMsg p)
    | some content =>
      if ¬ strContains content old_text then
        (fs, "Error: Text not found in " ++ p)
      else
        (fsWrite fs path (replaceFirst content old_text new_text),
          "Edited " ++ p)

/-! ### Skill repository

Embeds `SkillLoader` and `run_skill` from `miniagent/v4_skills.py`.  The
directory scan becomes a list of subdirectory snapshots (name, optional
`SKILL.md` text, resource-folder listings).  `parse_skill_md` implements
the deterministic (greedy, first-separator) reading of
`re.match(r"^---\s*\n(.*?)\n---\s*\n(.*)$", content, re.DOTALL)`: the
frontmatter of a well-formed manifest is everything between the opening
dash fence and the earliest following `\n---` fence line. -/

/-- Number of characters consumed by a regex fragment `\s*\n` applied
greedily at the front of `cs`: the whitespace run up to and including its
last newline, or `none` when the run holds no newline. -/
def wsThruLastNl (cs : List Char) : Option Nat :=
  let run := cs.takeWhile isPyWs
  let trailing := (run.reverse.takeWhile (fun c => c ≠ '\n')).length
  if run.any (fun c => c = '\n') then some (run.length - trailing)
  else none

/-- Scan for the first `\n---\s*\n` separator; returns the characters
before it (group 1, the frontmatter) and the characters after it
(group 2, the body). -/
def splitAtFence : List Char → Option (List Char × List Char)
  | [] => none
  | c :: cs =>
    let deeper := (splitAtFence cs).map
      (fun r => (c :: r.1, r.2))
    if c = '\n' then
      match cs with
      | '-' :: '-' :: '-' :: tail =>
        match wsThruLastNl tail with
        | some k => some ([], tail.drop k)
        | none => deeper
      | _ => deeper
    else deeper

/-- The frontmatter/body split of `parse_skill_md`'s regex match. -/
def matchFrontmatter (content : String) : Option (String × String) :=
  match content.data with
  | '-' :: '-' :: '-' :: rest =>
    match wsThruLastNl rest with
    | none => none
    | some k =>
      match splitAtFence (rest.drop k) with
      | some (fm, body) => some (String.mk fm, String.mk body)
      | none => none
  | _ => none

/-- Strip the quote characters Python's `strip("\"\x27")` removes from a
metadata value. -/
def stripQuotes (s : String) : String :=
  let isQ : Char → Bool := fun c => c = '"' ∨ c = '\x27'
  String.mk ((s.data.dropWhile isQ).reverse.dropWhile isQ).reverse

/-- Fold the frontmatter lines into a key/value map (later lines with the
same key overwrite, as in the source's dict assignment). -/
def parseMetaLines (lines : List String) : List (String × String) :=
  lines.foldl
    (fun acc line =>
      if (strSplitOn line ":").length > 1 then
        let key := pyStrip (String.mk (line.data.takeWhile (fun c => c ≠ ':')))
        let value :=
          stripQuotes (pyStrip (String.mk
            ((line.data.dropWhile (fun c => c ≠ ':')).drop 1)))
        if acc.any (fun kv => kv.1 = key) then
          acc.map (fun kv => if kv.1 = key then (key, value) else kv)
        else acc ++ [(key, value)]
      else acc)
    []

/-- Lookup in a string-valued key/value map. -/
def lookupStr (m : List (String × String)) (k : String) : Option String :=
  (m.find? (fun kv => kv.1 = k)).map (·.2)

/-- A loaded skill: manifest metadata plus the directory's resource
listings (`scripts`/`references`/`assets` folder name to contained file
names). -/
structure Skill where
  name : String
  description : String
  body : String
  dir : String
  resources : List (String × List String)

/-- One subdirectory of the skills directory as seen by the scan. -/
structure SkillDirEntry where
  dirName : String
  skillMd : Option String
  resources : List (String × List String)

/-- Embeds `parse_skill_md` for one manifest file paired with its directory's
resource listings; `none` when the fence regex fails to match or a
required metadata key is missing. -/
def parse_skill_md (entry : SkillDirEntry) (content : String) :
    Option Skill :=
  match matchFrontmatter content with
  | none => none
  | some (frontmatter, body) =>
    let metadata := parseMetaLines (strSplitOn (pyStrip frontmatter) "\n")
    match lookupStr metadata "name", lookupStr metadata "description" with
    | some n, some d =>
      some ⟨n, d, pyStrip body, entry.dirName, entry.resources⟩
    | _, _ => none

/-- Embeds `SkillLoader.load_skills`: scan the entries in order, keeping every
successfully parsed manifest; Python dict assignment keyed by skill name
keeps the first insertion position and overwrites the value. -/
def load_skills (entries : List SkillDirEntry) : List (String × Skill) :=
  entries.foldl
    (fun acc entry =>
      match entry.skillMd with
      | none => acc
      | some content =>
        match parse_skill_md entry content with
        | none => acc
        | some skill =>
          if acc.any (fun kv => kv.1 = skill.name) then
            acc.map (fun kv =>
              if kv.1 = skill.name then (skill.name, skill) else kv)
          else acc ++ [(skill.name, skill)])
    []

/-- Embeds `SkillLoader.get_descriptions`: the tier-1 summary text. -/
def get_descriptions (skills : List (String × Skill)) : String :=
  if skills.isEmpty then "(no skills available)"
  else pyJoin "\n"
    (skills.map (fun kv => "- " ++ kv.1 ++ ": " ++ kv.2.description))

/-- Resource listing lines of `get_skill_content` for one skill. -/
def resourceLines (skill : Skill) : List String :=
  [("scripts", "Scripts"), ("references", "References"),
    ("assets", "Assets")].filterMap
    (fun fl =>
      match skill.resources.find? (fun r => r.1 = fl.1) with
      | some (_, files) =>
        if files.isEmpty then none
        else some (fl.2 ++ ": " ++ pyJoin ", " files)
      | none => none)

/-- Embeds `SkillLoader.get_skill_content`: full body plus resource listing, or
`none` for an unknown name. -/
def get_skill_content (skills : List (String × Skill)) (name : String) :
    Option String :=
  match skills.find? (fun kv => kv.1 = name) with
  | none => none
  | some (_, skill) =>
    let base := "# Skill: " ++ skill.name ++ "\n\n" ++ skill.body
    let rs := resourceLines skill
    if rs.isEmpty then some base
    else some (base ++ "\n\n**Available resources in " ++ skill.dir ++
      ":**\n" ++ pyJoin "\n" (rs.map (fun r => "- " ++ r)))

/-- Embeds `SkillLoader.list_skills`. -/
def list_skills (skills : List (String × Skill)) : List String :=
  skills.map (·.1)

/-- Embeds `run_skill`: wrap the content in `<skill-loaded>` tags, or return the
unknown-skill error text (never raising). -/
def run_skill (skills : List (String × Skill)) (skill_name : String) :
    String :=
  match get_skill_content skills skill_name with
  | none =>
    let available :=
      let names := pyJoin ", " (list_skills skills)
      if names = "" then "none" else names
    "Error: Unknown skill \x27" ++ skill_name ++ "\x27. Available: " ++
      available
  | some content =>
    "<skill-loaded name=\"" ++ skill_name ++ "\">\n" ++ content ++
      "\n</skill-loaded>\n\nFollow the instructions in the skill above " ++
      "to complete the user\x27s task."

/-! ### Adapter request building

Embeds `LLMChatAdapter._build_langchain_messages`
(`llm_factory.py`, lines 70-100) with its `keep_messages_count` window
(default 20, set in `__init__`). -/

/-- A conversation history entry (`{"role": ..., "content": ...}`). -/
structure Message where
  role : String
  content : String

/-- A message in the request actually sent to the model boundary. -/
inductive LCMessage where
  | system (content : String) : LCMessage
  | ai (content : String) : LCMessage
  | human (content : String) : LCMessage

/-- Role conversion of one history entry (`system` / `assistant` /
anything else). -/
def convertMsg (m : Message) : LCMessage :=
  if m.role = "system" then .system m.content
  else if m.role = "assistant" then .ai m.content
  else .human m.content

/-- Python `history[-k:]` as used on a history longer than `k` (note the
`[-0:]` quirk: a zero count keeps the whole list). -/
def lastK (k : Nat) (history : List Message) : List Message :=
  if k = 0 then history else history.drop (history.length - k)

/-- Embeds `_build_langchain_messages`: optional adapter system message, then
either the bare prompt (empty history) or the windowed recent history.
The stored history itself is not changed (the function only reads it). -/
def buildLangchainMessages (system_info : String) (keep : Nat)
    (history : List Message) (prompt_text : String) : List LCMessage :=
  let base := if system_info ≠ "" then [LCMessage.system system_info] else []
  if history.isEmpty then base ++ [.human prompt_text]
  else
    let recent :=
      if history.length > keep then lastK keep history else history
    base ++ recent.map convertMsg

/-! ### Agent loop and subagent spawner

Embeds `agent_loop` (identical control flow in `v1_basic.py` 126-162,
`v3_subagent.py` 229-278 and `v4_skills.py` 403-456) and
`run_subagent_task` (`v4_skills.py` 279-347; `v3_subagent.py`'s
`run_task` is the same function modulo logging).  The model-call boundary
(`client.chat_with_tools`) becomes a parameter `model` from the current
message list to a `ModelTurn`; the tool dispatcher (`execute_tool`)
becomes a parameter `exec` from tool name and input to a result string —
exactly the contracts the loop relies on.  The Python loop classifies
blocks by `hasattr(block, "text")` (v3/v4) or `getattr(block, "type")`
(v1); on the two block classes these tests agree and coincide with the
`ContentBlock` constructors.  `"\n".join(assistant_text)` raises
`TypeError` when some text payload is not a string; that uncaught
exception is modelled as `Except.error`. -/

/-- Texts collected from a turn (`assistant_text`). -/
def turnTexts (t : ModelTurn) : List Json :=
  t.content.filterMap (fun b => match b with
    | .text j => some j
    | _ => none)

/-- Tool-use blocks collected from a turn (`tool_calls`), in order. -/
def turnTools (t : ModelTurn) : List ContentBlock :=
  t.content.filter (fun b => match b with
    | .toolUse _ _ _ => true
    | _ => false)

/-- A text payload when it is a Python `str`. -/
def textStr? : Json → Option String
  | .str s => some s
  | _ => none

/-- Embeds `"\n".join(assistant_text)`: succeeds when every collected text is a
string, otherwise the `TypeError` is modelled as `none`. -/
def joinTexts (texts : List Json) : Option String :=
  (texts.mapM textStr?).map (pyJoin "\n")

/-- The per-tool result line `工具 {name}, 输入: {input}, 返回: {output}`
appended to `results`. -/
def toolResultLine (execf : Json → Json → String) (b : ContentBlock) :
    String :=
  match b with
  | .toolUse _ nm inp =>
    "工具 " ++ nm.pyStr ++ ", 输入: " ++ inp.pyStr ++ ", 返回: " ++
      execf nm inp
  | .text _ => ""

/-- The combined user message fed back after dispatching
(`执行结果：\n{combined_output}\n\n请继续处理`). -/
def execResultsMsg (lines : List String) : String :=
  "执行结果：\n" ++ pyJoin "\n" lines ++ "\n\n请继续处理"

/-- The `while step < max_steps` body of `agent_loop`.  `Except.error ()`
models an exception escaping the loop, `.ok none` falling off the end of
the `while` (the function then returns `None`), `.ok (some h)` the
`return history` exit taken when a turn requests no tools. -/
def agentLoopGo (model : List Message → ModelTurn)
    (execf : Json → Json → String) :
    Nat → List Message → Except Unit (Option (List Message))
  | 0, _ => .ok none
  | fuel + 1, history =>
    let t := model history
    match joinTexts (turnTexts t) with
    | none => .error ()
    | some fullText =>
      if (turnTools t).isEmpty then
        .ok (some (history ++ [⟨"assistant", fullText⟩]))
      else
        agentLoopGo model execf fuel
          (history ++ [⟨"assistant", fullText⟩,
            ⟨"user", execResultsMsg ((turnTools t).map
              (toolResultLine execf))⟩])

/-- Number of model calls the loop performs (one per iteration entered). -/
def agentLoopCalls (model : List Message → ModelTurn)
    (execf : Json → Json → String) : Nat → List Message → Nat
  | 0, _ => 0
  | fuel + 1, history =>
    let t := model history
    match joinTexts (turnTexts t) with
    | none => 1
    | some fullText =>
      if (turnTools t).isEmpty then 1
      else
        1 + agentLoopCalls model execf fuel
          (history ++ [⟨"assistant", fullText⟩,
            ⟨"user", execResultsMsg ((turnTools t).map
              (toolResultLine execf))⟩])

/-- Embeds `agent_loop`: prepend the module system prompt when the history holds
no system message, then run the bounded loop. -/
def agent_loop (sysPrompt : String) (model : List Message → ModelTurn)
    (execf : Json → Json → String) (history : List Message)
    (max_steps : Nat) : Except Unit (Option (List Message)) :=
  let h :=
    if history.any (fun m => m.role = "system") then history
    else ⟨"system", sysPrompt⟩ :: history
  agentLoopGo model execf max_steps h

/-- Allowed-tool declaration of an agent type: the wildcard `"*"` or an
explicit name list. -/
inductive AllowedTools where
  | all : AllowedTools
  | only (names : List String) : AllowedTools

/-- One entry of the static `AGENT_TYPES` registry. -/
structure AgentConfig where
  description : String
  tools : AllowedTools
  prompt : String

/-- The `AGENT_TYPES` registry from `miniagent/utils.py`. -/
def AGENT_TYPES : List (String × AgentConfig) :=
  [("explore",
    ⟨"Read-only agent for exploring code, finding files, searching",
      .only ["bash", "read_file"],
      "You are an exploration agent. Search and analyze, but never " ++
        "modify files. Return a concise summary."⟩),
   ("code",
    ⟨"Full agent for implementing features and fixing bugs", .all,
      "You are a coding agent. Implement the requested changes " ++
        "efficiently."⟩),
   ("plan",
    ⟨"Planning agent for designing implementation strategies",
      .only ["bash", "read_file"],
      "You are a planning agent. Analyze the codebase and output a " ++
        "numbered implementation plan. Do NOT make changes."⟩)]

/-- Names of `BASE_TOOLS` (the subagent candidate set: the basic four plus
`TodoWrite`; `Task` is deliberately absent, bounding recursion to one
level). -/
def BASE_TOOL_NAMES : List String :=
  ["bash", "read_file", "write_file", "edit_file", "TodoWrite"]

/-- Embeds `get_tools_for_agent` (name level): unknown types fall back to the
wildcard; a name list filters `BASE_TOOLS` preserving its order. -/
def get_tools_for_agent (agent_type : String) : List String :=
  let allowed :=
    (((AGENT_TYPES.find? (fun kv => kv.1 = agent_type)).map
      (fun kv => kv.2.tools)).getD .all)
  match allowed with
  | .all => BASE_TOOL_NAMES
  | .only names => BASE_TOOL_NAMES.filter (fun n => names.contains n)

/-- Process environment values interpolated into the prompts
(`Path.cwd()` and `sys.platform`). -/
structure Env where
  workdir : String
  platform : String

/-- The role-specific subagent system prompt built by
`run_subagent_task`. -/
def subSystem (env : Env) (agent_type : String) (cfg : AgentConfig) :
    String :=
  "你是一个位于 " ++ env.workdir ++ " 的 " ++ agent_type ++
    " 子代理，系统为 " ++ env.platform ++ "。\n\n" ++ cfg.prompt ++
    "\n\n完成任务并返回清晰、简洁的总结。"

/-- The fresh message history the subagent loop starts from: exactly the
role-specific system message and the task prompt. -/
def initialSubMessages (env : Env) (agent_type : String)
    (cfg : AgentConfig) (prompt : String) : List Message :=
  [⟨"system", subSystem env agent_type cfg⟩, ⟨"user", prompt⟩]

/-- The per-tool result line of the subagent loop. -/
def subToolResultLine (execf : Json → Json → String) (agent_type : String)
    (b : ContentBlock) : String :=
  match b with
  | .toolUse _ nm inp =>
    "      [子代理][" ++ agent_type ++ "] 工具 " ++ nm.pyStr ++
      ", 输入: " ++ inp.pyStr ++ ", 返回: " ++ execf nm inp
  | .text _ => ""

/-- The user message fed back to the subagent after dispatching. -/
def subResultsMsg (lines : List String) : String :=
  "子代理执行结果：\n" ++ pyJoin "\n" lines ++ "\n\n请继续处理"

/-- The code after `run_subagent_task`'s loop: return the final turn's
joined text when that turn holds a text block, else the fixed fallback. -/
def subFinish (t : ModelTurn) (fullText : String) : String :=
  if (turnTexts t).isEmpty then "(subagent returned no text)" else fullText

/-- The `while step < max_steps` loop of `run_subagent_task`, carrying the
most recent turn and its joined text (the Python locals `response` and
`full_text` read after the loop; reading them when the loop never ran is
the `NameError` modelled by `Except.error`). -/
def subLoopGo (model : List Message → ModelTurn)
    (execf : Json → Json → String) (agent_type : String) :
    Nat → List Message → Option (ModelTurn × String) → Except Unit String
  | 0, _, none => .error ()
  | 0, _, some (t, fullText) => .ok (subFinish t fullText)
  | fuel + 1, msgs, _ =>
    let t := model msgs
    match joinTexts (turnTexts t) with
    | none => .error ()
    | some fullText =>
      if (turnTools t).isEmpty then .ok (subFinish t fullText)
      else
        subLoopGo model execf agent_type fuel
          (msgs ++ [⟨"assistant", fullText⟩,
            ⟨"user", subResultsMsg ((turnTools t).map
              (subToolResultLine execf agent_type))⟩])
          (some (t, fullText))

/-- Embeds `run_subagent_task` (`v4_skills.py`; `v3_subagent.py`'s `run_task` is
identical in every modelled respect): reject unknown agent types with the
error string, otherwise run an independent loop over a brand-new
two-message history — the parent's history is not even a parameter, so
context isolation holds by construction.  The model boundary receives the
filtered tool list and the current subagent messages. -/
def run_subagent_task (model : List String → List Message → ModelTurn)
    (execf : Json → Json → String) (env : Env)
    (_description : String) (prompt agent_type : String) (max_steps : Nat) :
    Except Unit String :=
  match AGENT_TYPES.find? (fun kv => kv.1 = agent_type) with
  | none =>
    .ok ("Error: Unknown agent type \x27" ++ agent_type ++ "\x27")
  | some (_, cfg) =>
    subLoopGo (model (get_tools_for_agent agent_type)) execf agent_type
      max_steps (initialSubMessages env agent_type cfg prompt) none

/-! ### Derived predicates and concrete instances used by the theorems -/

/-- Whether an `Except` is the error case (a raised exception). -/
def exceptIsError : Except String (List TodoItem) → Bool
  | .error _ => true
  | .ok _ => false

/-- The stored form of a raw todo item: stripped `content`/`activeForm`,
lowercased `status`, with the source defaults for absent fields. -/
def normalizeItem (it : TodoItemInput) : TodoItem :=
  ⟨pyStrip (it.content.getD ""), strToLower (it.status.getD "pending"),
    pyStrip (it.activeForm.getD "")⟩

/-- Per-item validity: non-empty stripped `content` and `activeForm`, and
a recognized (normalized) status. -/
def itemValid (it : TodoItemInput) : Bool :=
  let n := normalizeItem it
  n.content ≠ "" ∧
    (n.status = "pending" ∨ n.status = "in_progress" ∨
      n.status = "completed") ∧
    n.activeForm ≠ ""

/-- The failure condition of the claim for `TodoManager.update`: some invalid
item, more than 20 items, or more than one (normalized) `in_progress`
item. -/
def todoFailCond (items : List TodoItemInput) : Bool :=
  items.any (fun it => ! itemValid it) || items.length > 20 ||
    (items.filter
      (fun it => (normalizeItem it).status = "in_progress")).length > 1

/-- Well-formedness of one `tool_calls` entry for the conversion loop: a
JSON object which, when it carries a `function` key, maps it to an object
holding both `arguments` and `name`. -/
def entryWF : Json → Bool
  | .obj kvs =>
    if dictHasKey kvs "function" then
      match dictGet kvs "function" with
      | some (.obj fd) => dictHasKey fd "arguments" && dictHasKey fd "name"
      | _ => false
    else true
  | _ => false

/-- The block the conversion loop produces for one well-formed entry
(`none` for an entry without a `function` key, which the loop skips). -/
def toolBlockOf : Json → Option ContentBlock
  | .obj kvs =>
    match dictGet kvs "function" with
    | some (.obj fd) =>
      match dictGet fd "arguments", dictGet fd "name" with
      | some args, some nm =>
        some (.toolUse ((dictGet kvs "id").getD (.str "call_1")) nm
          (decodeArguments args))
      | _, _ => none
    | _ => none
  | _ => none

/-- Whether the raw reply parses into one of the two tool-call shapes the
normalizer recognizes. -/
def parsesAsToolShape (content : String) : Bool :=
  match Json.parse content with
  | none => false
  | some d => isDictToolCalls d || isLegacyToolList d

/-- A model boundary equal to `model` except for a forced stop reason. -/
def setStop (model : List Message → ModelTurn) (r : String) :
    List Message → ModelTurn :=
  fun h => ⟨(model h).content, r⟩

/-- The raw reply of the claim's concrete normalization example. -/
def rawToolCallExample : String :=
  "\x7b\"tool_calls\":[\x7b\"id\":\"1\",\"function\":\x7b\"name\":" ++
    "\"bash\",\"arguments\":\"\x7b\\\"command\\\":\\\"ls\\\"\x7d\"\x7d" ++
    "\x7d]\x7d"

/-- A raw reply whose single `tool_calls` entry lacks a `function` key. -/
def rawSkippedEntry : String :=
  "\x7b\"tool_calls\":[\x7b\"id\":\"1\"\x7d]\x7d"

/-- A model-boundary stub that always requests one more `bash` call. -/
def stubAlwaysTool : List Message → ModelTurn :=
  fun _ =>
    ⟨[.toolUse (.str "1") (.str "bash")
      (.obj [("command", .str "ls")])], "tool_use"⟩

/-- A model-boundary stub that answers with plain text and an unusual
stop reason. -/
def stubNoTool : List Message → ModelTurn :=
  fun _ => ⟨[.text (.str "done")], "some_other_reason"⟩

/-- A dispatcher stub with a fixed result. -/
def stubExec : Json → Json → String := fun _ _ => "ok"

/-- The skills-directory snapshot of the claim's round-trip example. -/
def pdfEntry : SkillDirEntry :=
  ⟨"pdf",
    some "---\nname: pdf\ndescription: handle pdfs\n---\nUse pdftotext.",
    []⟩

/-- The parsed single `tool_calls` entry of `rawToolCallExample`. -/
def exampleEntry : Json :=
  .obj [("id", .str "1"),
    ("function", .obj [("name", .str "bash"),
      ("arguments", .str "\x7b\"command\":\"ls\"\x7d")])]

/-- A 21-entry history whose position-0 entry is a system message. -/
def history21 : List Message :=
  ⟨"system", "S"⟩ :: List.replicate 20 ⟨"user", "m"⟩

/-- A subagent model-boundary stub that immediately answers with text. -/
def stubSubModel : List String → List Message → ModelTurn :=
  fun _ _ => ⟨[.text (.str "summary")], "end_turn"⟩

/-- The registry entry for the `explore` agent type. -/
def explorePair : String × AgentConfig :=
  ("explore",
    ⟨"Read-only agent for exploring code, finding files, searching",
      .only ["bash", "read_file"],
      "You are an exploration agent. Search and analyze, but never " ++
        "modify files. Return a concise summary."⟩)

/-! ## Theorems -/

/-! ### Shared lemmas -/

/-- A key is bound exactly when the key test succeeds. -/
theorem dictGet_isSome_iff_hasKey (kvs : List (String × Json))
    (k : String) : (dictGet kvs k).isSome = dictHasKey kvs k := by
  induction kvs with
  | nil => rfl
  | cons kv rest ih =>
    cases hr : dictGet rest k with
    | some v =>
      have h2 : dictHasKey rest k = true := by rw [← ih, hr]; rfl
      simp only [dictGet, hr, dictHasKey, List.any_cons]
      simp only [dictHasKey] at h2
      simp [h2]
    | none =>
      have h2 : dictHasKey rest k = false := by rw [← ih, hr]; rfl
      simp only [dictGet, hr, dictHasKey, List.any_cons]
      simp only [dictHasKey] at h2
      rw [h2]
      by_cases hk : kv.1 = k <;> simp [hk]

/-- An absent key yields no binding. -/
theorem dictGet_none_of_not_hasKey {kvs : List (String × Json)}
    {k : String} (h : dictHasKey kvs k = false) :
    dictGet kvs k = none := by
  have := dictGet_isSome_iff_hasKey kvs k
  rw [h] at this
  simpa [Option.isSome_iff_exists] using this

/-- A successful key test yields a binding. -/
theorem dictGet_isSome_of_hasKey {kvs : List (String × Json)}
    {k : String} (h : dictHasKey kvs k = true) :
    ∃ v, dictGet kvs k = some v := by
  have := dictGet_isSome_iff_hasKey kvs k
  rw [h] at this
  exact Option.isSome_iff_exists.mp this

/-- A present binding implies the key test succeeds. -/
theorem dictHasKey_of_dictGet_some {kvs : List (String × Json)}
    {k : String} {v : Json} (h : dictGet kvs k = some v) :
    dictHasKey kvs k = true := by
  have := dictGet_isSome_iff_hasKey kvs k
  rw [h] at this
  simpa using this.symm

/-! ### C9: skill repository round trip -/

/-- C9: loading a skill package whose manifest reads `name: pdf` /
`description: handle pdfs` with body `Use pdftotext.` produces a summary
listing containing `pdf: handle pdfs` and a `load("pdf")` result
containing `Use pdftotext.`, while loading an unknown name returns the
descriptive not-found error text (with the available names) instead of
raising. -/
theorem skill_round_trip :
    strContains (get_descriptions (load_skills [pdfEntry]))
      "pdf: handle pdfs" = true ∧
    strContains (run_skill (load_skills [pdfEntry]) "pdf")
      "Use pdftotext." = true ∧
    run_skill (load_skills [pdfEntry]) "missing" =
      "Error: Unknown skill \x27missing\x27. Available: pdf" :=
  ⟨by set_option maxRecDepth 4000 in decide,
    by set_option maxRecDepth 4000 in decide,
    by set_option maxRecDepth 4000 in rfl⟩

/-! ### C5: normalization is total -/

/-- C5: `normalize` always returns a well-formed turn (its stop reason is
one of the two canonical values; in the embedding it is a total function,
mirroring the bare `except` that stops any exception), and whenever the
raw reply does not parse into one of the recognized tool-call shapes the
result is a single text block holding the raw content verbatim with stop
reason `end_turn`. -/
theorem normalize_total (content : String) :
    ((normalize content).stop_reason = "end_turn" ∨
      (normalize content).stop_reason = "tool_use") ∧
    (parsesAsToolShape content = false →
      normalize content = ⟨[.text (.str content)], "end_turn"⟩) := by
  constructor
  · cases hp : Json.parse content with
    | none => simp [normalize, hp]
    | some d =>
      by_cases h1 : isDictToolCalls d
      · simp [normalize, hp, h1]
      · by_cases h2 : isLegacyToolList d <;> simp [normalize, hp, h1, h2]
  · intro h
    cases hp : Json.parse content with
    | none => simp [normalize, hp]
    | some d =>
      simp only [parsesAsToolShape, hp, Bool.or_eq_false_iff] at h
      simp [normalize, hp, h.1, h.2]

/-- C5 witness: an unparsable raw reply degrades to the verbatim text
block with `end_turn`. -/
theorem normalize_total_witness :
    parsesAsToolShape "not json [" = false ∧
    normalize "not json [" =
      ⟨[.text (.str "not json [")], "end_turn"⟩ :=
  ⟨by decide, (normalize_total "not json [").2 (by decide)⟩

/-! ### C4: tool-call normalization -/

/-- C4 counterexample: the claim promises one `tool_use` block for every
`tool_calls` entry, but the conversion loop only processes entries
carrying a `function` key: this reply parses to a single-entry
`tool_calls` list yet normalizes to zero blocks. -/
theorem normalize_skips_functionless_entry :
    Json.parse rawSkippedEntry =
      some (.obj [("tool_calls", .arr [.obj [("id", .str "1")]])]) ∧
    normalize rawSkippedEntry = ⟨[], "tool_use"⟩ :=
  ⟨rfl, rfl⟩

/-- The conversion loop on well-formed entries raises nothing and appends
exactly the block of each entry that carries a `function` key. -/
theorem processToolCalls_wf :
    ∀ (tl : List Json) (acc : List ContentBlock),
      (∀ tc ∈ tl, entryWF tc = true) →
      processToolCalls tl acc = (acc ++ tl.filterMap toolBlockOf, false) := by
  intro tl
  induction tl with
  | nil => intro acc _; simp [processToolCalls]
  | cons tc rest ih =>
    intro acc hwf
    have htc : entryWF tc = true := hwf tc (by simp)
    have hrest : ∀ x ∈ rest, entryWF x = true :=
      fun x hx => hwf x (by simp [hx])
    cases tc with
    | obj kvs =>
      by_cases hf : dictHasKey kvs "function"
      · simp only [entryWF, hf, if_true] at htc
        cases hg : dictGet kvs "function" with
        | none =>
          rcases dictGet_isSome_of_hasKey hf with ⟨v, hv⟩
          rw [hv] at hg; exact absurd hg (by simp)
        | some fd =>
          cases fd with
          | obj fdl =>
            rw [hg] at htc
            have hargs := (Bool.and_eq_true _ _).mp htc
            rcases dictGet_isSome_of_hasKey hargs.1 with ⟨a, ha⟩
            rcases dictGet_isSome_of_hasKey hargs.2 with ⟨nm, hnm⟩
            simp only [processToolCalls, pyContainsFunction, hf,
              pyIndexFunction, hg, ha, hnm]
            rw [ih _ hrest]
            simp [toolBlockOf, hg, ha, hnm]
          | null => rw [hg] at htc; simp at htc
          | bool b => rw [hg] at htc; simp at htc
          | num l => rw [hg] at htc; simp at htc
          | str s => rw [hg] at htc; simp at htc
          | arr xs => rw [hg] at htc; simp at htc
      · have hg := dictGet_none_of_not_hasKey (by simpa using hf)
        simp only [processToolCalls, pyContainsFunction,
          Bool.not_eq_true] at *
        rw [hf]
        rw [ih _ hrest]
        simp [toolBlockOf, hg]
    | null => simp [entryWF] at htc
    | bool b => simp [entryWF] at htc
    | num l => simp [entryWF] at htc
    | str s => simp [entryWF] at htc
    | arr xs => simp [entryWF] at htc

/-- C4 amended: for a reply parsing to an object with a `tool_calls` list
whose entries are well formed (each entry an object; any `function` value
an object carrying `name` and `arguments`), normalization yields stop
reason `tool_use`, a leading text block exactly when the `content` field
is truthy, and one `tool_use` block per entry that carries a `function`
key (entries without one are skipped), every text block preceding every
`tool_use` block; `arguments` given as a serialized string is parsed with
fallback to the raw string. -/
theorem normalize_tool_calls (content : String)
    (kvs : List (String × Json)) (tl : List Json)
    (hp : Json.parse content = some (.obj kvs))
    (htl : dictGet kvs "tool_calls" = some (.arr tl))
    (hwf : ∀ tc ∈ tl, entryWF tc = true) :
    normalize content =
      ⟨leadingTextBlocks kvs ++ tl.filterMap toolBlockOf, "tool_use"⟩ := by
  have hk : dictHasKey kvs "tool_calls" = true := dictHasKey_of_dictGet_some htl
  have hguard : isDictToolCalls (.obj kvs) = true := by
    simp [isDictToolCalls, hk, htl]
  have htc : toolCallsOf kvs = tl := by simp [toolCallsOf, htl]
  simp only [normalize, hp, hguard, if_true, Json.objFields, htc]
  rw [processToolCalls_wf tl (leadingTextBlocks kvs) hwf]
  simp [branchBlocks]

/-- C4 witness: the claim's concrete reply normalizes to exactly one
`tool_use` block named `bash` with parsed input, and `tool_use` stop
reason. -/
theorem normalize_tool_calls_witness :
    normalize rawToolCallExample =
      ⟨[.toolUse (.str "1") (.str "bash")
        (.obj [("command", .str "ls")])], "tool_use"⟩ := by
  have h := normalize_tool_calls rawToolCallExample
    [("tool_calls", .arr [exampleEntry])] [exampleEntry]
    (by rfl) (by rfl) (by decide)
  exact h

/-! ### C6: workspace path containment -/

/-- C6: whenever the path argument resolves outside the workspace root,
`read_file`, `write_file` and `edit_file` each return the containment
error text and leave the filesystem unchanged (the read result is the
same fixed string for every filesystem, so nothing is read either); a
path resolving inside the root passes `safe_path`. -/
theorem path_containment (workdir : List String) (p : String) :
    (workdir.isPrefixOf (resolvedPath workdir p) = false →
      (∀ fs limit, run_read fs workdir p limit =
        "Error: Path escapes workspace: " ++ p) ∧
      (∀ fs content, run_write fs workdir p content =
        (fs, "Error: Path escapes workspace: " ++ p)) ∧
      (∀ fs o n, run_edit fs workdir p o n =
        (fs, "Error: Path escapes workspace: " ++ p))) ∧
    (workdir.isPrefixOf (resolvedPath workdir p) = true →
      safe_path workdir p = .ok (resolvedPath workdir p)) := by
  constructor <;> intro h
  · refine ⟨fun fs limit => ?_, fun fs content => ?_, fun fs o n => ?_⟩ <;>
      simp [run_read, run_write, run_edit, safe_path, h,
        ← String.append_assoc]
  · simp [safe_path, h]

/-- C6 witness: `../../etc/passwd` escapes a three-component workspace and
is rejected by all three tools without touching the filesystem, while a
relative path inside the workspace is accepted. -/
theorem path_containment_witness :
    run_read [] ["home", "user", "ws"] "../../etc/passwd" none =
      "Error: Path escapes workspace: ../../etc/passwd" ∧
    run_write [] ["home", "user", "ws"] "../../etc/passwd" "x" =
      ([], "Error: Path escapes workspace: ../../etc/passwd") ∧
    run_edit [] ["home", "user", "ws"] "../../etc/passwd" "a" "b" =
      ([], "Error: Path escapes workspace: ../../etc/passwd") ∧
    safe_path ["home", "user", "ws"] "sub/file.txt" =
      .ok ["home", "user", "ws", "sub", "file.txt"] := by
  have h := path_containment ["home", "user", "ws"] "../../etc/passwd"
  have hesc := h.1 (by decide)
  refine ⟨hesc.1 [] none, hesc.2.1 [] "x", hesc.2.2 [] "a" "b", ?_⟩
  have h2 := (path_containment ["home", "user", "ws"] "sub/file.txt").2
    (by decide)
  exact h2

/-! ### C10: request window of recent messages -/

/-- C10: with the default `keep_messages_count` of 20, a history longer
than 20 messages is windowed to exactly its 20 most recent entries — every
earlier entry, including a system message at position 0, is absent from
the built request (the optional adapter-level system message is the only
other content; the stored history itself is only read, never changed). -/
theorem recent_window (system_info : String) (history : List Message)
    (prompt_text : String) (h : history.length > 20) :
    buildLangchainMessages system_info 20 history prompt_text =
      (if system_info ≠ "" then [LCMessage.system system_info] else []) ++
        (history.drop (history.length - 20)).map convertMsg ∧
    (history.drop (history.length - 20)).length = 20 := by
  constructor
  · have hne : history.isEmpty = false := by
      cases history with
      | nil => simp at h
      | cons a t => rfl
    simp only [buildLangchainMessages, hne, Bool.false_eq_true, if_false,
      if_pos h, lastK]
    simp
  · simp only [List.length_drop]
    omega

/-- C10 witness: on a 21-message history whose head is a system message,
the built request keeps only the latest 20 entries. -/
theorem recent_window_witness :
    buildLangchainMessages "info" 20 history21 "p" =
      (if ("info" : String) ≠ "" then [LCMessage.system "info"] else []) ++
        (history21.drop (history21.length - 20)).map convertMsg ∧
    (history21.drop (history21.length - 20)).length = 20 :=
  recent_window "info" history21 "p" (by decide)

/-! ### C3 and C8: todo store -/

/-- Validation of one item either succeeds with its normalized form or
raises, decided by `itemValid`. -/
theorem validateItem_cases (i : Nat) (it : TodoItemInput) :
    (itemValid it = true ∧ validateItem i it = .ok (normalizeItem it)) ∨
    (itemValid it = false ∧ ∃ e, validateItem i it = .error e) := by
  by_cases h1 : pyStrip (it.content.getD "") = ""
  · right
    refine ⟨by simp [itemValid, normalizeItem, h1],
      ⟨"Item " ++ toString i ++ ": content required",
        by simp [validateItem, h1]⟩⟩
  · by_cases h2 : strToLower (it.status.getD "pending") = "pending" ∨
      strToLower (it.status.getD "pending") = "in_progress" ∨
      strToLower (it.status.getD "pending") = "completed"
    · by_cases h3 : pyStrip (it.activeForm.getD "") = ""
      · right
        refine ⟨by simp [itemValid, normalizeItem, h1, h3],
          ⟨"Item " ++ toString i ++ ": activeForm required", ?_⟩⟩
        simp [validateItem, h1, h2, h3]
      · left
        refine ⟨by simp [itemValid, normalizeItem, h1, h2, h3], ?_⟩
        simp [validateItem, normalizeItem, h1, h2, h3]
    · right
      refine ⟨by simp [itemValid, normalizeItem, h2],
        ⟨"Item " ++ toString i ++ ": invalid status \x27" ++
          strToLower (it.status.getD "pending") ++ "\x27", ?_⟩⟩
      simp [validateItem, h1, h2]

/-- When every item is valid, list validation returns the normalized
items. -/
theorem validateItems_ok_of_all :
    ∀ (items : List TodoItemInput) (i : Nat),
      (∀ it ∈ items, itemValid it = true) →
      validateItems i items = .ok (items.map normalizeItem) := by
  intro items
  induction items with
  | nil => intro i _; rfl
  | cons x rest ih =>
    intro i hall
    have hx := hall x (by simp)
    have hok : validateItem i x = .ok (normalizeItem x) := by
      rcases validateItem_cases i x with ⟨_, h⟩ | ⟨hf, _⟩
      · exact h
      · rw [hx] at hf; exact absurd hf (by simp)
    simp [validateItems, hok, ih (i + 1) (fun it hit => hall it (by simp [hit]))]

/-- When some item is invalid, list validation raises. -/
theorem validateItems_error_of_any :
    ∀ (items : List TodoItemInput) (i : Nat),
      items.any (fun it => ! itemValid it) = true →
      ∃ e, validateItems i items = .error e := by
  intro items
  induction items with
  | nil => intro i h; simp at h
  | cons x rest ih =>
    intro i hany
    rcases validateItem_cases i x with ⟨hv, hok⟩ | ⟨_, e, herr⟩
    · have hrest : rest.any (fun it => ! itemValid it) = true := by
        simp only [List.any_cons, hv, Bool.not_true, Bool.false_or] at hany
        exact hany
      rcases ih (i + 1) hrest with ⟨e, he⟩
      exact ⟨e, by simp [validateItems, hok, he]⟩
    · exact ⟨e, by simp [validateItems, herr]⟩

/-- Filtering a mapped list counts the preimages. -/
theorem length_filter_map_eq {α β : Type} (f : α → β) (p : β → Bool)
    (l : List α) :
    ((l.map f).filter p).length = (l.filter (fun x => p (f x))).length := by
  induction l with
  | nil => rfl
  | cons x rest ih =>
    by_cases hx : p (f x) <;> simp [List.filter, hx, ih]

/-- C3: the replace operation fails exactly when some item has empty
(stripped) `content` or `activeForm` or an unrecognized (lowercased)
status, or more than one item is `in_progress`, or the list exceeds 20
items; and on every failure the stored list is returned unchanged with the
exception text as an `Error:` string. -/
theorem todo_replace_fails_iff (items : List TodoItemInput)
    (stored : List TodoItem) :
    exceptIsError (TodoManager.update items) = todoFailCond items ∧
    (∀ e, TodoManager.update items = .error e →
      todoWrite items stored = (stored, "Error: " ++ e)) := by
  constructor
  · cases hany : items.any (fun it => ! itemValid it) with
    | true =>
      rcases validateItems_error_of_any items 0 hany with ⟨e, he⟩
      simp [TodoManager.update, he, exceptIsError, todoFailCond, hany]
    | false =>
      have hall : ∀ it ∈ items, itemValid it = true := by
        intro it hit
        by_contra hne
        have : items.any (fun x => ! itemValid x) = true :=
          List.any_eq_true.mpr ⟨it, hit, by simp [Bool.not_eq_true] at hne ⊢; simp [hne]⟩
        rw [hany] at this; exact absurd this (by simp)
      have hval := validateItems_ok_of_all items 0 hall
      have hcnt : inProgressCount (items.map normalizeItem) =
          (items.filter
            (fun it => (normalizeItem it).status = "in_progress")).length := by
        simpa [inProgressCount] using
          length_filter_map_eq normalizeItem
            (fun t => t.status = "in_progress") items
      by_cases h20 : items.length > 20
      · have : (items.map normalizeItem).length > 20 := by
          simpa using h20
        simp [TodoManager.update, hval, this, exceptIsError, todoFailCond,
          hany, h20]
      · by_cases hip :
          (items.filter
            (fun it => (normalizeItem it).status = "in_progress")).length > 1
        · have hip' : inProgressCount (items.map normalizeItem) > 1 := by
            rw [hcnt]; exact hip
          have h20' : ¬ (items.map normalizeItem).length > 20 := by
            simpa using h20
          simp [TodoManager.update, hval, h20', hip', exceptIsError,
            todoFailCond, hany, h20, hip]
        · have hip' : ¬ inProgressCount (items.map normalizeItem) > 1 := by
            rw [hcnt]; exact hip
          have h20' : ¬ (items.map normalizeItem).length > 20 := by
            simpa using h20
          simp [TodoManager.update, hval, h20', hip', exceptIsError,
            todoFailCond, hany, h20, hip]
  · intro e he
    simp [todoWrite, he]

/-- C3 witness: a single item with empty `content` is rejected with the
stored list untouched, and the failure condition agrees with the
outcome. -/
theorem todo_replace_fails_iff_witness :
    exceptIsError (TodoManager.update
        [⟨some "", some "pending", some "x"⟩]) =
      todoFailCond [⟨some "", some "pending", some "x"⟩] ∧
    todoWrite [⟨some "", some "pending", some "x"⟩]
        [⟨"keep", "pending", "keeping"⟩] =
      ([⟨"keep", "pending", "keeping"⟩],
        "Error: " ++ "Item 0: content required") := by
  have h := todo_replace_fails_iff
    [⟨some "", some "pending", some "x"⟩] [⟨"keep", "pending", "keeping"⟩]
  exact ⟨h.1, h.2 "Item 0: content required" (by rfl)⟩

/-- Appending one element to a non-empty join inserts one separator. -/
theorem pyJoin_append_last (sep : String) :
    ∀ (A : List String) (x : String), A ≠ [] →
      pyJoin sep (A ++ [x]) = pyJoin sep A ++ sep ++ x := by
  intro A
  induction A with
  | nil => intro x h; exact absurd rfl h
  | cons a t ih =>
    intro x _
    cases t with
    | nil => rfl
    | cons b t' =>
      have ih' := ih x (by simp)
      simp only [List.cons_append] at ih' ⊢
      simp only [pyJoin, ih']
      simp [String.append_assoc]

/-- A successful update yields exactly the normalized input items. -/
theorem update_ok_shape (items : List TodoItemInput) (v : List TodoItem)
    (h : TodoManager.update items = .ok v) :
    v = items.map normalizeItem := by
  cases hany : items.any (fun it => ! itemValid it) with
  | true =>
    rcases validateItems_error_of_any items 0 hany with ⟨e, he⟩
    rw [TodoManager.update, he] at h
    exact absurd h (by simp)
  | false =>
    have hall : ∀ it ∈ items, itemValid it = true := by
      intro it hit
      by_contra hne
      have : items.any (fun x => ! itemValid x) = true :=
        List.any_eq_true.mpr ⟨it, hit, by
          simp [Bool.not_eq_true] at hne ⊢; simp [hne]⟩
      rw [hany] at this; exact absurd this (by simp)
    have hval := validateItems_ok_of_all items 0 hall
    simp only [TodoManager.update, hval] at h
    by_cases h20 : (items.map normalizeItem).length > 20
    · rw [if_pos h20] at h; exact absurd h (by simp)
    · rw [if_neg h20] at h
      by_cases hip : inProgressCount (items.map normalizeItem) > 1
      · rw [if_pos hip] at h; exact absurd h (by simp)
      · rw [if_neg hip] at h
        injection h with h2
        exact h2.symm

/-- C8: a successful replace installs exactly the (normalized) new items,
discarding the previous list entirely; the rendering is one glyph line per
item followed (after a blank separator) by the `(k/n completed)` summary
in which `k` counts completed items and `n` is the list length; the empty
list renders as the fixed `No todos.` string. -/
theorem todo_render_shape (items : List TodoItemInput)
    (stored v : List TodoItem) (h : TodoManager.update items = .ok v) :
    todoWrite items stored = (v, TodoManager.render v) ∧
    v = items.map normalizeItem ∧
    (v = [] → TodoManager.render v = "No todos.") ∧
    (v ≠ [] → TodoManager.render v =
      pyJoin "\n" (v.map renderItem) ++ "\n" ++ renderSummary v) ∧
    renderSummary v = "\n(" ++ toString (completedCount v) ++ "/" ++
      toString v.length ++ " completed)" ∧
    (∀ it ∈ v,
      (it.status = "completed" → renderItem it = "[x] " ++ it.content) ∧
      (it.status = "in_progress" →
        renderItem it = "[>] " ++ it.content ++ " <- " ++ it.activeForm) ∧
      (it.status ≠ "completed" → it.status ≠ "in_progress" →
        renderItem it = "[ ] " ++ it.content)) := by
  refine ⟨by simp [todoWrite, h], update_ok_shape items v h, ?_, ?_, rfl, ?_⟩
  · intro hv; simp [TodoManager.render, hv]
  · intro hv
    have hne : v.map renderItem ≠ [] := by simpa using hv
    have hE : v.isEmpty = false := by
      cases v with
      | nil => exact absurd rfl hv
      | cons a t => rfl
    rw [TodoManager.render, hE]
    simp only [Bool.false_eq_true, if_false]
    exact pyJoin_append_last "\n" (v.map renderItem) (renderSummary v) hne
  · intro it _
    refine ⟨fun hc => by simp [renderItem, hc], fun hi => ?_,
      fun hnc hni => by simp [renderItem, hnc, hni]⟩
    have hnc : it.status ≠ "completed" := by rw [hi]; decide
    simp [renderItem, hnc, hi]

/-- C8 witness: a two-item valid list replaces the store and renders one
line per item with the correct `(1/2 completed)` summary. -/
theorem todo_render_shape_witness :
    todoWrite
        [⟨some "Write tests", some "completed", some "Writing tests"⟩,
          ⟨some "Fix bug", some "in_progress", some "Fixing bug"⟩]
        [⟨"old", "pending", "старый"⟩] =
      ([⟨"Write tests", "completed", "Writing tests"⟩,
        ⟨"Fix bug", "in_progress", "Fixing bug"⟩],
        TodoManager.render
          [⟨"Write tests", "completed", "Writing tests"⟩,
            ⟨"Fix bug", "in_progress", "Fixing bug"⟩]) ∧
    TodoManager.render
        [⟨"Write tests", "completed", "Writing tests"⟩,
          ⟨"Fix bug", "in_progress", "Fixing bug"⟩] =
      "[x] Write tests\n[>] Fix bug <- Fixing bug\n\n(1/2 completed)" := by
  have h := todo_render_shape
    [⟨some "Write tests", some "completed", some "Writing tests"⟩,
      ⟨some "Fix bug", some "in_progress", some "Fixing bug"⟩]
    [⟨"old", "pending", "старый"⟩]
    [⟨"Write tests", "completed", "Writing tests"⟩,
      ⟨"Fix bug", "in_progress", "Fixing bug"⟩]
    (by rfl)
  exact ⟨h.1, by rfl⟩

/-! ### C1 and C7: the agent loop state machine -/

/-- The loop never consults the stop reason: forcing any stop reason on
every turn leaves the loop's behavior unchanged. -/
theorem agentLoopGo_stop_irrel (model : List Message → ModelTurn)
    (execf : Json → Json → String) (r : String) :
    ∀ (fuel : Nat) (history : List Message),
      agentLoopGo (setStop model r) execf fuel history =
        agentLoopGo model execf fuel history := by
  intro fuel
  induction fuel with
  | zero => intro history; rfl
  | succ n ih =>
    intro history
    have hc : (setStop model r history).content = (model history).content :=
      rfl
    simp only [agentLoopGo, turnTexts, turnTools, setStop]
    cases hj : joinTexts ((model history).content.filterMap fun b =>
        match b with
        | .text j => some j
        | _ => none) with
    | none => rfl
    | some ft =>
      by_cases htool : ((model history).content.filter fun b =>
          match b with
          | .toolUse _ _ _ => true
          | _ => false).isEmpty
      · simp [htool]
      · simp [htool, ih]

/-- C1: in every loop iteration the decision is taken from the presence of
`tool_use` blocks alone — with no such block the loop returns at once
(appending the turn's text as the final assistant message), with at least
one it dispatches them all and continues — and the reported stop reason is
never consulted (forcing any stop reason changes nothing). -/
theorem agent_loop_tool_use_decides (model : List Message → ModelTurn)
    (execf : Json → Json → String) (history : List Message) (fuel : Nat)
    (ft : String)
    (htext : joinTexts (turnTexts (model history)) = some ft) :
    (∀ r, agentLoopGo (setStop model r) execf (fuel + 1) history =
      agentLoopGo model execf (fuel + 1) history) ∧
    ((turnTools (model history)).isEmpty = true →
      agentLoopGo model execf (fuel + 1) history =
        .ok (some (history ++ [⟨"assistant", ft⟩]))) ∧
    ((turnTools (model history)).isEmpty = false →
      agentLoopGo model execf (fuel + 1) history =
        agentLoopGo model execf fuel
          (history ++ [⟨"assistant", ft⟩,
            ⟨"user", execResultsMsg ((turnTools (model history)).map
              (toolResultLine execf))⟩])) := by
  refine ⟨fun r => agentLoopGo_stop_irrel model execf r (fuel + 1) history,
    fun htool => ?_, fun htool => ?_⟩
  · simp [agentLoopGo, htext, htool]
  · simp [agentLoopGo, htext, htool]

/-- C1 witness: a text-only turn with a non-canonical stop reason still
terminates the loop at once, and forcing yet another stop reason changes
nothing. -/
theorem agent_loop_tool_use_decides_witness :
    agentLoopGo stubNoTool stubExec 1 [] =
      .ok (some [⟨"assistant", "done"⟩]) ∧
    agentLoopGo (setStop stubNoTool "tool_use") stubExec 1 [] =
      agentLoopGo stubNoTool stubExec 1 [] := by
  have h := agent_loop_tool_use_decides stubNoTool stubExec [] 0 "done" rfl
  exact ⟨by simpa using h.2.1 rfl, h.1 "tool_use"⟩

/-- C7 counterexample: with a model stub that always requests another tool
call, the loop exhausts its budget and returns `None` — no "step limit
reached" message is handed to the caller (`v1_basic.agent_loop` only logs
one; `v4_skills.agent_loop` does not even log), refuting the claim that a
fixed budget-exhausted message is returned. -/
theorem step_limit_returns_none :
    agent_loop "SYS" stubAlwaysTool stubExec [⟨"user", "go"⟩] 2 =
      .ok none ∧
    ∀ out, agent_loop "SYS" stubAlwaysTool stubExec [⟨"user", "go"⟩] 2 ≠
      .ok (some out) := by
  constructor
  · rfl
  · intro out h
    rw [show agent_loop "SYS" stubAlwaysTool stubExec [⟨"user", "go"⟩] 2 =
      .ok none from rfl] at h
    exact Option.noConfusion (Except.ok.inj h)

/-- C7 amended: when every turn requests at least one tool call (and its
text payloads are strings), the loop performs exactly `maxSteps` model
calls, then stops and returns `None` — it neither raises nor loops
forever, but hands back no "step limit reached" message. -/
theorem step_limit_amended (model : List Message → ModelTurn)
    (execf : Json → Json → String)
    (h : ∀ msgs, (turnTools (model msgs)).isEmpty = false ∧
      ∃ ft, joinTexts (turnTexts (model msgs)) = some ft) :
    (∀ fuel history, agentLoopGo model execf fuel history = .ok none ∧
      agentLoopCalls model execf fuel history = fuel) ∧
    (∀ sysPrompt history maxSteps,
      agent_loop sysPrompt model execf history maxSteps = .ok none) := by
  have main : ∀ fuel history,
      agentLoopGo model execf fuel history = .ok none ∧
      agentLoopCalls model execf fuel history = fuel := by
    intro fuel
    induction fuel with
    | zero => intro history; exact ⟨rfl, rfl⟩
    | succ n ih =>
      intro history
      obtain ⟨htool, ft, hft⟩ := h history
      constructor
      · simp only [agentLoopGo, hft, htool]
        simpa using (ih _).1
      · simp only [agentLoopCalls, hft, htool]
        rw [if_neg (by simp [htool])]
        rw [(ih _).2]
        omega
  refine ⟨main, fun sysPrompt history maxSteps => ?_⟩
  simp only [agent_loop]
  exact (main maxSteps _).1

/-- C7 witness: the always-tool stub exhausts a budget of 3 in exactly 3
model calls with no returned value. -/
theorem step_limit_amended_witness :
    agentLoopGo stubAlwaysTool stubExec 3 [] = .ok none ∧
    agentLoopCalls stubAlwaysTool stubExec 3 [] = 3 ∧
    agent_loop "SYS" stubAlwaysTool stubExec [] 5 = .ok none := by
  have h := step_limit_amended stubAlwaysTool stubExec
    (fun msgs => ⟨rfl, "", rfl⟩)
  exact ⟨(h.1 3 []).1, (h.1 3 []).2, h.2 "SYS" [] 5⟩

/-! ### C2: subagent isolation -/

/-- Every value the subagent loop returns is either the fixed no-text
fallback or the joined text of one of the model boundary's turns — never a
dispatcher output. -/
theorem subLoopGo_final (model1 : List Message → ModelTurn)
    (execf : Json → Json → String) (atype : String) :
    ∀ (fuel : Nat) (msgs : List Message)
      (last : Option (ModelTurn × String)),
      (∀ t ft, last = some (t, ft) →
        (∃ m, t = model1 m) ∧ joinTexts (turnTexts t) = some ft) →
      ∀ s, subLoopGo model1 execf atype fuel msgs last = .ok s →
        s = "(subagent returned no text)" ∨
          ∃ m ft, joinTexts (turnTexts (model1 m)) = some ft ∧ s = ft := by
  intro fuel
  induction fuel with
  | zero =>
    intro msgs last hinv s hs
    cases last with
    | none => exact absurd hs (by simp [subLoopGo])
    | some p =>
      obtain ⟨t, ft⟩ := p
      obtain ⟨⟨m, hm⟩, hj⟩ := hinv t ft rfl
      simp only [subLoopGo] at hs
      have hs2 : subFinish t ft = s := Except.ok.inj hs
      rw [subFinish] at hs2
      by_cases he : (turnTexts t).isEmpty
      · rw [if_pos he] at hs2
        exact Or.inl hs2.symm
      · rw [if_neg he] at hs2
        exact Or.inr ⟨m, ft, by rw [← hm]; exact hj, hs2.symm⟩
  | succ n ih =>
    intro msgs last hinv s hs
    simp only [subLoopGo] at hs
    cases hj : joinTexts (turnTexts (model1 msgs)) with
    | none => simp only [hj] at hs; exact absurd hs (by simp)
    | some ft =>
      simp only [hj] at hs
      by_cases htool : (turnTools (model1 msgs)).isEmpty
      · rw [if_pos htool] at hs
        have hs2 : subFinish (model1 msgs) ft = s := Except.ok.inj hs
        rw [subFinish] at hs2
        by_cases he : (turnTexts (model1 msgs)).isEmpty
        · rw [if_pos he] at hs2
          exact Or.inl hs2.symm
        · rw [if_neg he] at hs2
          exact Or.inr ⟨msgs, ft, hj, hs2.symm⟩
      · rw [if_neg htool] at hs
        exact ih _ _ (fun t' ft' heq => by
          have h1 : t' = model1 msgs ∧ ft' = ft := by
            have h2 := Option.some.inj heq
            exact ⟨(congrArg Prod.fst h2).symm, (congrArg Prod.snd h2).symm⟩
          exact ⟨⟨msgs, h1.1⟩, by rw [h1.1, h1.2]; exact hj⟩) s hs

/-- C2: for a registered agent type the spawner runs an independent loop
whose starting history is exactly two messages — the role-specific system
message (the agent type's prompt fragment spliced into the fixed template)
and the task prompt; the parent's history is not even an input of the
spawner, so no entry of it can appear (isolation by construction).  The
value handed back is a single text string: the fixed fallback or the
joined text blocks of one model turn, never a dispatcher output.  An
unregistered agent type yields the `Unknown agent type` error string. -/
theorem subagent_isolation (model : List String → List Message → ModelTurn)
    (execf : Json → Json → String) (env : Env)
    (d prompt agent_type : String) (n : Nat) (pr : String × AgentConfig)
    (hreg : AGENT_TYPES.find? (fun kv => kv.1 = agent_type) = some pr) :
    run_subagent_task model execf env d prompt agent_type n =
      subLoopGo (model (get_tools_for_agent agent_type)) execf agent_type n
        (initialSubMessages env agent_type pr.2 prompt) none ∧
    initialSubMessages env agent_type pr.2 prompt =
      [⟨"system", subSystem env agent_type pr.2⟩, ⟨"user", prompt⟩] ∧
    (initialSubMessages env agent_type pr.2 prompt).length = 2 ∧
    subSystem env agent_type pr.2 =
      "你是一个位于 " ++ env.workdir ++ " 的 " ++ agent_type ++
        " 子代理，系统为 " ++ env.platform ++ "。\n\n" ++ pr.2.prompt ++
        "\n\n完成任务并返回清晰、简洁的总结。" ∧
    (∀ s, run_subagent_task model execf env d prompt agent_type n = .ok s →
      s = "(subagent returned no text)" ∨
        ∃ m ft, joinTexts (turnTexts
          (model (get_tools_for_agent agent_type) m)) = some ft ∧ s = ft) ∧
    (∀ a, AGENT_TYPES.find? (fun kv => kv.1 = a) = none →
      run_subagent_task model execf env d prompt a n =
        .ok ("Error: Unknown agent type \x27" ++ a ++ "\x27")) := by
  obtain ⟨k, cfg⟩ := pr
  have hrun : run_subagent_task model execf env d prompt agent_type n =
      subLoopGo (model (get_tools_for_agent agent_type)) execf agent_type n
        (initialSubMessages env agent_type cfg prompt) none := by
    simp [run_subagent_task, hreg]
  refine ⟨hrun, rfl, rfl, rfl, fun s hs => ?_, fun a ha => ?_⟩
  · rw [hrun] at hs
    exact subLoopGo_final (model (get_tools_for_agent agent_type)) execf
      agent_type n (initialSubMessages env agent_type cfg prompt) none
      (fun t ft heq => Option.noConfusion heq) s hs
  · simp [run_subagent_task, ha]

/-- C2 witness: spawning an `explore` subagent starts from exactly the
two-message fresh history, and with a stub model that answers immediately
the parent receives that single text answer; an unknown type yields the
error string. -/
theorem subagent_isolation_witness :
    run_subagent_task stubSubModel stubExec ⟨"/w", "linux"⟩
        "look around" "find auth files" "explore" 5 =
      subLoopGo (stubSubModel (get_tools_for_agent "explore")) stubExec
        "explore" 5
        (initialSubMessages ⟨"/w", "linux"⟩ "explore" explorePair.2
          "find auth files") none ∧
    (initialSubMessages ⟨"/w", "linux"⟩ "explore" explorePair.2
      "find auth files").length = 2 ∧
    run_subagent_task stubSubModel stubExec ⟨"/w", "linux"⟩
        "look around" "find auth files" "explore" 5 = .ok "summary" ∧
    run_subagent_task stubSubModel stubExec ⟨"/w", "linux"⟩
        "look around" "find auth files" "bogus" 5 =
      .ok ("Error: Unknown agent type \x27" ++ "bogus" ++ "\x27") := by
  have h := subagent_isolation stubSubModel stubExec ⟨"/w", "linux"⟩
    "look around" "find auth files" "explore" 5 explorePair rfl
  exact ⟨h.1, h.2.2.1, rfl, h.2.2.2.2.2 "bogus" rfl⟩

end MiniAgent

